import Mathlib

/-!
Verification of the document synchronization engine of clawdbot-feishu
(`src/doc-write-service.ts`, with its near-duplicate legacy copy in
`src/docx.ts`).  The TypeScript functions are shallowly embedded as
executable Lean definitions: remote API behaviour is supplied by an
explicit environment (`DocEnv`), the sequence of batch-create calls is
threaded through an explicit `CallState`, and fallible operations return
`Except String`.
-/

namespace Feishu

/-- Styled text run inside a text payload (`text.elements[i]`). -/
structure TextElement where
  content : String
deriving DecidableEq, Repr

/-- Payload of text-like blocks (`block.text`). -/
structure TextPayload where
  elements : List TextElement
deriving DecidableEq, Repr

/-- `table.property` of a table block; `merge_info` is the merge metadata
that the create API rejects.  The merge payload itself is irrelevant to the
engine, so it is kept opaque as a list of coordinate pairs. -/
structure TableProperty where
  row_size : Option Nat := none
  column_size : Option Nat := none
  merge_info : Option (List (Nat × Nat)) := none
deriving DecidableEq, Repr

/-- `block.table`: ordered cell id list plus geometry/merge properties. -/
structure TableData where
  cells : Option (List String) := none
  property : Option TableProperty := none
deriving DecidableEq, Repr

/-- `block.table_cell`: some convert payloads carry text directly here. -/
structure CellData where
  text : Option TextPayload := none
deriving DecidableEq, Repr

/-- A typed document block as handled by the engine.  Fields that are
absent (`undefined`) in the JavaScript objects are modelled with
`Option`; `block_type` is the numeric type tag. -/
structure Block where
  block_type : Nat
  block_id : Option String := none
  parent_id : Option String := none
  children : Option (List String) := none
  text : Option TextPayload := none
  table : Option TableData := none
  table_cell : Option CellData := none
deriving DecidableEq, Repr

instance : Inhabited Block := ⟨{ block_type := 0 }⟩

/-- `BLOCK_TYPE_NAMES` from the source. -/
def BLOCK_TYPE_NAMES : List (Nat × String) :=
  [(1, "Page"), (2, "Text"), (3, "Heading1"), (4, "Heading2"), (5, "Heading3"),
   (12, "Bullet"), (13, "Ordered"), (14, "Code"), (15, "Quote"), (17, "Todo"),
   (18, "Bitable"), (21, "Diagram"), (22, "Divider"), (23, "File"),
   (27, "Image"), (30, "Sheet"), (31, "Table"), (32, "TableCell")]

/-- `BLOCK_TYPE_NAMES[t] || `type_${t}``; every listed name is a non-empty
(hence truthy) string, so `||` is exactly the default fallback. -/
def blockTypeName (t : Nat) : String :=
  match BLOCK_TYPE_NAMES.lookup t with
  | some n => n
  | none => "type_" ++ toString t

/-- `UNSUPPORTED_CREATE_TYPES = new Set([32])`. -/
def UNSUPPORTED_CREATE_TYPES : List Nat := [32]

/-- `MAX_BLOCKS_PER_INSERT = 50`. -/
def MAX_BLOCKS_PER_INSERT : Nat := 50

/-- The per-block body of `cleanBlocksForInsert`'s `.map`: shallow copy,
delete `block_id`, `parent_id`, `children`; for a table block replace
`table` by `{ property: propertyRest }` where `propertyRest` is
`table.property ?? {}` without its `merge_info` key. -/
def stripForInsert (b : Block) : Block :=
  let b1 : Block := { b with block_id := none, parent_id := none, children := none }
  if b1.block_type = 31 then
    match b1.table with
    | some t =>
        let property := t.property.getD {}
        { b1 with table := some { cells := none, property := some { property with merge_info := none } } }
    | none => b1
  else b1

/-- `cleanBlocksForInsert`: drop blocks of unsupported type (recording
their type names, in input order) and strip read-only fields from the
survivors. -/
def cleanBlocksForInsert (blocks : List Block) : List Block × List String :=
  let skipped := (blocks.filter (fun b => UNSUPPORTED_CREATE_TYPES.contains b.block_type)).map
    (fun b => blockTypeName b.block_type)
  let cleaned := (blocks.filter (fun b => !UNSUPPORTED_CREATE_TYPES.contains b.block_type)).map
    stripForInsert
  (cleaned, skipped)

/-- JavaScript truthiness of `block.block_id`: present and non-empty. -/
def truthyId (b : Block) : Option String :=
  match b.block_id with
  | some s => if s = "" then none else some s
  | none => none

/-- Lookup in the `Map` built by `buildBlockMap` / the map inside
`reorderBlocks`: keyed by truthy `block_id`, later insertions win. -/
def blockMapFind (blocks : List Block) (id : String) : Option Block :=
  blocks.reverse.find? (fun b => truthyId b = some id)

/-- `reorderBlocks`: empty order list returns the collection untouched;
otherwise emit the resolvable blocks in order-list sequence, falling back
to the original collection when nothing resolves. -/
def reorderBlocks (blocks : List Block) (firstLevelBlockIds : List String) : List Block :=
  if firstLevelBlockIds.isEmpty then blocks
  else
    let ordered := firstLevelBlockIds.filterMap (blockMapFind blocks)
    if ordered.length > 0 then ordered else blocks

/-- `[...new Set(l)]`: deduplicate keeping the first occurrence of each
element, preserving order. -/
def dedupKeepFirst : List String → List String
  | [] => []
  | x :: xs => x :: (dedupKeepFirst xs).filter (fun y => y ≠ x)

/-! ## Kernel-computable string helpers

JavaScript string primitives (`trim`, `startsWith`, `toLowerCase`,
`split`) are embedded as structural list functions so that concrete runs
reduce inside the kernel. -/

/-- Pattern is a literal prefix of the text. -/
def listStartsWith : List Char → List Char → Bool
  | [], _ => true
  | _ :: _, [] => false
  | p :: ps, c :: cs => p == c && listStartsWith ps cs

/-- JavaScript whitespace as relevant to `String.prototype.trim`. -/
def isJsWhitespace (c : Char) : Bool :=
  c = ' ' || c = '\t' || c = '\n' || c = '\r' ||
    c.toNat = 11 || c.toNat = 12 || c.toNat = 160 || c.toNat = 65279

/-- `s.trim()`. -/
def jsTrim (s : String) : String :=
  String.mk (((s.toList.dropWhile isJsWhitespace).reverse.dropWhile isJsWhitespace).reverse)

/-- `s.startsWith(p)`. -/
def strStartsWith (s p : String) : Bool :=
  listStartsWith p.toList s.toList

/-- `s.slice(n)` / `String.drop` over code points. -/
def strDrop (s : String) (n : Nat) : String :=
  String.mk (s.toList.drop n)

/-- `s.split("/")`. -/
def splitSlash : List Char → List (List Char)
  | [] => [[]]
  | c :: rest =>
    let r := splitSlash rest
    if c = '/' then [] :: r
    else
      match r with
      | h :: t => (c :: h) :: t
      | [] => [[c]]

/-! ## Image URL extraction (`extractImageUrls`)

The regex `!\[[^\]]*\]\(([^)]+)\)` with the `g` flag is embedded as a
left-to-right scanner.  Since the two character classes exclude exactly
the closing delimiter, the regex deterministically matches up to the
first `]` and the first `)` respectively. -/

/-- Split a character list at the first occurrence of `c` (the delimiter
itself is dropped); `none` when `c` does not occur. -/
def splitAtChar (c : Char) : List Char → Option (List Char × List Char)
  | [] => none
  | x :: xs =>
    if x = c then some ([], xs)
    else (splitAtChar c xs).map (fun p => (x :: p.1, p.2))

/-- Try to match `!\[[^\]]*\]\(([^)]+)\)` at the head of the character
list, returning the url capture group and the characters after the
match. -/
def parseImageAt : List Char → Option (String × List Char)
  | '!' :: '[' :: rest =>
    match splitAtChar ']' rest with
    | none => none
    | some (_, afterAlt) =>
      match afterAlt with
      | '(' :: rest2 =>
        match splitAtChar ')' rest2 with
        | none => none
        | some (captured, afterParen) =>
          if captured.isEmpty then none
          else some (String.mk captured, afterParen)
      | _ => none
  | _ => none

/-- Scan loop of `extractImageUrls`: collect trimmed captures that start
with `http://` or `https://`, resuming after each match; the fuel is the
remaining input length (each step consumes at least one character). -/
def scanImages : Nat → List Char → List String
  | 0, _ => []
  | _ + 1, [] => []
  | fuel + 1, l =>
    match parseImageAt l with
    | some (raw, restAfter) =>
      let url := jsTrim raw
      if strStartsWith url "http://" || strStartsWith url "https://" then
        url :: scanImages fuel restAfter
      else scanImages fuel restAfter
    | none => scanImages fuel l.tail

/-- `extractImageUrls(markdown)`. -/
def extractImageUrls (markdown : String) : List String :=
  scanImages markdown.toList.length markdown.toList

/-! ## Retry classification (`isRetryableCreateError`) -/

/-- `RETRYABLE_CREATE_ERROR_CODES = new Set([429, 1254290, 1254291, 1255040])`. -/
def RETRYABLE_CREATE_ERROR_CODES : List Int := [429, 1254290, 1254291, 1255040]

/-- A JavaScript `\w` character: `[A-Za-z0-9_]`. -/
def isWordChar (c : Char) : Bool := c.isAlphanum || c = '_'

/-- Literal match of `pattern` at the current position with `\b` on both
sides; `prev` is the character just before the position. -/
def wbMatchAt (pattern : List Char) (prev : Option Char) (text : List Char) : Bool :=
  (match prev with | none => true | some c => !isWordChar c) &&
  listStartsWith pattern text &&
  (match text.drop pattern.length with | [] => true | c :: _ => !isWordChar c)

/-- Search for a `\b pattern \b` match anywhere in the text. -/
def wbSearch (pattern : List Char) : Option Char → List Char → Bool
  | prev, [] => wbMatchAt pattern prev []
  | prev, c :: rest => wbMatchAt pattern prev (c :: rest) || wbSearch pattern (some c) rest

/-- Plain substring search (patterns without `\b`). -/
def substringSearch (pattern : List Char) : List Char → Bool
  | [] => listStartsWith pattern []
  | c :: rest => listStartsWith pattern (c :: rest) || substringSearch pattern rest

/-- `RETRYABLE_MESSAGE_PATTERNS.some((p) => p.test(text))`: the five
case-insensitive `\b`-delimited English patterns plus the two Chinese
substrings. -/
def matchesRetryableMessage (msg : String) : Bool :=
  let t := msg.toList.map Char.toLower
  wbSearch "rate".toList none t || wbSearch "frequency".toList none t ||
  wbSearch "too many".toList none t || wbSearch "limit".toList none t ||
  wbSearch "qps".toList none t ||
  substringSearch "频率".toList t || substringSearch "限流".toList t

/-- `isRetryableCreateError(code?, msg?)`: falsy (absent or zero) codes
are never retryable; known codes always are; otherwise the message
patterns are consulted on `msg ?? ""`. -/
def isRetryableCreateError (code : Option Int) (msg : Option String) : Bool :=
  match code with
  | none => false
  | some c =>
    if c = 0 then false
    else if RETRYABLE_CREATE_ERROR_CODES.contains c then true
    else matchesRetryableMessage (msg.getD "")

/-! ## Backoff policy (`CREATE_CHILDREN_RETRY_POLICY`, `computeBackoffDelayMs`,
`executeWithBackoff`) -/

/-- `CREATE_CHILDREN_RETRY_POLICY.maxAttempts`. -/
def policyMaxAttempts : Nat := 4

/-- `CREATE_CHILDREN_RETRY_POLICY.baseDelayMs`. -/
def policyBaseDelayMs : ℚ := 250

/-- `CREATE_CHILDREN_RETRY_POLICY.maxDelayMs`. -/
def policyMaxDelayMs : ℚ := 2500

/-- `CREATE_CHILDREN_RETRY_POLICY.jitterRatio` (0.2). -/
def policyJitter : ℚ := 1 / 5

/-- `Math.round` for the non-negative values produced here. -/
def jsRound (q : ℚ) : ℤ := ⌊q + 1 / 2⌋

/-- `computeBackoffDelayMs(attempt)`: exponential growth capped at the
maximum delay with symmetric ±20% jitter; `rand` stands for the
`Math.random()` draw in `[0, 1)`. -/
def computeBackoffDelayMs (attempt : Nat) (rand : ℚ) : ℤ :=
  let expDelay := min policyMaxDelayMs (policyBaseDelayMs * 2 ^ (attempt - 1))
  let jitter := expDelay * policyJitter
  let lo := max 0 (expDelay - jitter)
  let hi := expDelay + jitter
  jsRound (lo + rand * (hi - lo))

/-- Loop body of `executeWithBackoff`, with the one-result-per-attempt
operation threaded through an explicit state.  The fuel counts the
remaining loop iterations (`maxAttempts - attempt + 1`); it reaches zero
without a result only when `maxAttempts = 0`, in which case the source
dereferences an undefined `lastResult` (modelled as `none`). -/
def ewbAux {σ T : Type} (op : σ → T × σ) (isSucc shouldRetry : T → Bool)
    (maxAttempts : Nat) : Nat → Nat → σ → Option (T × σ)
  | 0, _, _ => none
  | fuel + 1, attempt, s =>
    let step := op s
    if isSucc step.1 then some step
    else if !shouldRetry step.1 || attempt == maxAttempts then some step
    else ewbAux op isSucc shouldRetry maxAttempts fuel (attempt + 1) step.2

/-- `executeWithBackoff`: run the operation up to `maxAttempts` times,
stopping early on success or on a non-retryable result, and return the
final attempt's result. -/
def executeWithBackoff {σ T : Type} (op : σ → T × σ) (isSucc shouldRetry : T → Bool)
    (maxAttempts : Nat) (s : σ) : Option (T × σ) :=
  ewbAux op isSucc shouldRetry maxAttempts maxAttempts 1 s

/-! ## Remote API environment and the batch-create call layer

Every `docx.documentBlockChildren.create` call is recorded in a
`CallState` log; the environment decides the response of the `k`-th call
(retries re-issue and re-log the same payload). -/

/-- Payload of one `documentBlockChildren.create` call. -/
structure CreateCall where
  document_id : String
  block_id : String
  children : List Block
deriving DecidableEq, Repr

/-- Response of a create call; `children` models `res.data?.children ?? []`. -/
structure CreateResponse where
  code : Int
  msg : String
  children : List Block
deriving DecidableEq, Repr

/-- Sequence number and log of the create calls issued so far. -/
structure CallState where
  count : Nat
  log : List CreateCall
deriving DecidableEq, Repr

/-- Behaviour of the remote document store for one engine operation.
`create` maps the index and payload of a create call to its response; the
remaining fields are the responses of the single-shot list / delete /
convert / media calls. -/
structure DocEnv where
  create : Nat → CreateCall → CreateResponse
  listCode : Int := 0
  listMsg : String := ""
  listItems : List Block := []
  deleteCode : Int := 0
  deleteMsg : String := ""
  convertCode : Int := 0
  convertMsg : String := ""
  convertBlocks : List Block := []
  convertFirstLevelIds : List String := []
  fetchMedia : String → Nat → Option String := fun _ _ => none
  uploadMedia : Option String → String → String → Option String := fun _ _ _ => none
  patchThrows : String → Option String → Bool := fun _ _ => false

/-- Placeholder response for the dead `lastResult!` branch of the retry
wrapper (unreachable for the fixed policy of 4 attempts). -/
def defaultCreateResponse : CreateResponse := { code := -1, msg := "unreachable", children := [] }

/-- One invocation of `client.docx.documentBlockChildren.create`: consult
the environment at the current call index and append the payload to the
log. -/
def createChildrenOp (env : DocEnv) (docId blockId : String) (children : List Block) :
    CallState → CreateResponse × CallState :=
  fun s =>
    let call : CreateCall := { document_id := docId, block_id := blockId, children := children }
    (env.create s.count call, { count := s.count + 1, log := s.log ++ [call] })

/-- `createChildrenWithRetry`: the create call driven by
`executeWithBackoff` with `isSuccess = (code === 0)` and
`shouldRetry = isRetryableCreateError(code, msg)`. -/
def createChildrenWithRetry (env : DocEnv) (docId blockId : String) (children : List Block)
    (s : CallState) : CreateResponse × CallState :=
  (executeWithBackoff (createChildrenOp env docId blockId children)
    (fun res => res.code == 0)
    (fun res => isRetryableCreateError (some res.code) (some res.msg))
    policyMaxAttempts s).getD (defaultCreateResponse, s)

/-- `insertBlocks`: sanitize, no call when nothing survives, one retried
batch call otherwise; a non-success final response is thrown. -/
def insertBlocks (env : DocEnv) (docToken : String) (blocks : List Block)
    (parentBlockId : Option String) (s : CallState) :
    Except String ((List Block × List String) × CallState) :=
  let (cleaned, skipped) := cleanBlocksForInsert blocks
  let blockId := parentBlockId.getD docToken
  if cleaned.isEmpty then .ok (([], skipped), s)
  else
    let (res, s1) := createChildrenWithRetry env docToken blockId cleaned s
    if res.code ≠ 0 then .error res.msg
    else .ok ((res.children, skipped), s1)

/-- Fallback loop of `insertBlocksInBatches`: after a failed batch, insert
each cleaned block of the chunk individually, keeping the children of
the calls that succeed and merely logging the ones that fail. -/
def singlesGo (env : DocEnv) (docToken blockId : String) :
    List Block → CallState → List Block × CallState
  | [], s => ([], s)
  | b :: bs, s =>
    let (res, s1) := createChildrenWithRetry env docToken blockId [b] s
    let (rest, s2) := singlesGo env docToken blockId bs s1
    ((if res.code = 0 then res.children else []) ++ rest, s2)

/-- Per-chunk body of the `insertBlocksInBatches` loop: sanitize the
chunk, skip it when empty after sanitation, otherwise issue the retried
batch call and, if it still reports a non-success code, degrade to
per-block inserts.  Returns the chunk's inserted children and raw
skipped names. -/
def processChunk (env : DocEnv) (docToken blockId : String) (batch : List Block)
    (s : CallState) : (List Block × List String) × CallState :=
  let (cleaned, skipped) := cleanBlocksForInsert batch
  if cleaned.isEmpty then (([], skipped), s)
  else
    let (res, sb) := createChildrenWithRetry env docToken blockId cleaned s
    if res.code = 0 then ((res.children, skipped), sb)
    else
      let (ins, s2) := singlesGo env docToken blockId cleaned sb
      ((ins, skipped), s2)

/-- Chunk loop of `insertBlocksInBatches`: take `MAX_BLOCKS_PER_INSERT`
blocks at a time and process each chunk, accumulating inserted children
and raw skipped names across chunks.  The fuel bounds the number of loop
iterations; every iteration consumes at least one block, so the input
length is always sufficient fuel. -/
def ibbGo (env : DocEnv) (docToken blockId : String) :
    Nat → List Block → CallState → (List Block × List String) × CallState
  | 0, _, s => (([], []), s)
  | fuel + 1, blocks, s =>
    if blocks.isEmpty then (([], []), s)
    else
      let c := processChunk env docToken blockId (blocks.take MAX_BLOCKS_PER_INSERT) s
      let rest := ibbGo env docToken blockId fuel (blocks.drop MAX_BLOCKS_PER_INSERT) c.2
      ((c.1.1 ++ rest.1.1, c.1.2 ++ rest.1.2), rest.2)

/-- `insertBlocksInBatches`: chunked insertion under `parentBlockId ?? docToken`
with the skipped type names deduplicated at the end. -/
def insertBlocksInBatches (env : DocEnv) (docToken : String) (blocks : List Block)
    (parentBlockId : Option String) (s : CallState) : (List Block × List String) × CallState :=
  let blockId := parentBlockId.getD docToken
  let (res, s1) := ibbGo env docToken blockId blocks.length blocks s
  ((res.1, dedupKeepFirst res.2), s1)

/-! ## Table reconciliation (`insertTableWithCells`,
`insertBlocksPreservingTables`) -/

/-- `{ children, skipped, warnings }` of the table-aware insertion path. -/
structure InsertOutcome where
  children : List Block
  skipped : List String
  warnings : List String
deriving DecidableEq, Repr

/-- Truthiness of `cell?.text?.elements?.length`. -/
def textHasElems : Option TextPayload → Bool
  | some p => !p.elements.isEmpty
  | none => false

/-- Warning for `srcCells.length !== dstCells.length`. -/
def mismatchWarning (src dst : Nat) : String :=
  "Table cell count mismatch after create (source=" ++ toString src ++
    ", target=" ++ toString dst ++ "); content may be partially copied."

/-- Warning for an incomplete cell-content copy. -/
def partialCopyWarning (copied total : Nat) : String :=
  "Copied table cell content for " ++ toString copied ++ "/" ++ toString total ++
    " non-empty cells."

/-- Warning when the create call did not return the table block. -/
def noTableWarning : String :=
  "Table block was not returned after create; skipped table cell content."

/-- Warning when the created table came back without generated cells. -/
def noCellsWarning : String :=
  "Table created but API did not return generated cells; table content may be empty."

/-- Per-cell copy loop of `insertTableWithCells` over the zipped
source/destination cell id pairs (`min` of the two lengths).  Returns
`(copiedChildren, collected skipped, sourceCellsWithContent,
copiedCellCount)`. -/
def cellLoop (env : DocEnv) (docToken : String) (allBlocks : List Block) :
    List (String × String) → CallState → (List Block × List String × Nat × Nat) × CallState
  | [], s => (([], [], 0, 0), s)
  | (srcId, dstId) :: rest, s =>
    let srcCell := blockMapFind allBlocks srcId
    let srcChildIds := (srcCell.bind (fun c => c.children)).getD []
    let base := srcChildIds.filterMap (blockMapFind allBlocks)
    let srcText := srcCell.bind (fun c => c.text)
    let b1 := if base.isEmpty && textHasElems srcText then
        [{ block_type := 2, text := srcText : Block }] else base
    let cellText := (srcCell.bind (fun c => c.table_cell)).bind (fun c => c.text)
    let b2 := if b1.isEmpty && textHasElems cellText then
        [{ block_type := 2, text := cellText : Block }] else b1
    if b2.isEmpty then cellLoop env docToken allBlocks rest s
    else
      let (cellRes, s1) := insertBlocksInBatches env docToken b2 (some dstId) s
      let (restRes, s2) := cellLoop env docToken allBlocks rest s1
      ((cellRes.1 ++ restRes.1, cellRes.2 ++ restRes.2.1,
        1 + restRes.2.2.1, (if cellRes.1.isEmpty then 0 else 1) + restRes.2.2.2), s2)

/-- `insertTableWithCells`: insert the table skeleton, read back the
server-assigned cell ids, copy each non-empty source cell's content into
the matching destination cell, and report mismatches as warnings. -/
def insertTableWithCells (env : DocEnv) (docToken : String) (tableBlock : Block)
    (allBlocks : List Block) (parentBlockId : Option String) (s : CallState) :
    Except String (InsertOutcome × CallState) :=
  match insertBlocks env docToken [tableBlock] parentBlockId s with
  | .error e => .error e
  | .ok (tins, s1) =>
    match tins.1.head? with
    | none => .ok ({ children := tins.1, skipped := tins.2, warnings := [noTableWarning] }, s1)
    | some insertedTable =>
      if insertedTable.block_type ≠ 31 then
        .ok ({ children := tins.1, skipped := tins.2, warnings := [noTableWarning] }, s1)
      else
        let srcCells := (tableBlock.table.bind (fun t => t.cells)).getD []
        let dstCells := (insertedTable.table.bind (fun t => t.cells)).getD []
        if srcCells.isEmpty then
          .ok ({ children := tins.1, skipped := tins.2, warnings := [] }, s1)
        else if dstCells.isEmpty then
          .ok ({ children := tins.1, skipped := tins.2, warnings := [noCellsWarning] }, s1)
        else
          let (loopRes, s2) := cellLoop env docToken allBlocks (srcCells.zip dstCells) s1
          let w1 := if srcCells.length ≠ dstCells.length then
              [mismatchWarning srcCells.length dstCells.length] else []
          let w2 := if 0 < loopRes.2.2.1 ∧ loopRes.2.2.2 < loopRes.2.2.1 then
              [partialCopyWarning loopRes.2.2.2 loopRes.2.2.1] else []
          .ok ({ children := tins.1 ++ loopRes.1,
                 skipped := dedupKeepFirst (tins.2 ++ loopRes.2.1),
                 warnings := w1 ++ w2 }, s2)

/-- Buffered walk of `insertBlocksPreservingTables`: non-table blocks are
buffered and flushed in batches; each table flushes the buffer first and
is then reconciled cell by cell. -/
def ibptGo (env : DocEnv) (docToken : String) (allBlocks : List Block)
    (parentBlockId : Option String) :
    List Block → List Block → CallState →
    Except String ((List Block × List String × List String) × CallState)
  | [], buffer, s =>
    if buffer.isEmpty then .ok (([], [], []), s)
    else
      let (res, s1) := insertBlocksInBatches env docToken buffer parentBlockId s
      .ok ((res.1, res.2, []), s1)
  | b :: rest, buffer, s =>
    if b.block_type = 31 then
      let flush :=
        if buffer.isEmpty then (([], []), s)
        else insertBlocksInBatches env docToken buffer parentBlockId s
      match insertTableWithCells env docToken b allBlocks parentBlockId flush.2 with
      | .error e => .error e
      | .ok (tres, s1) =>
        match ibptGo env docToken allBlocks parentBlockId rest [] s1 with
        | .error e => .error e
        | .ok (restRes, s2) =>
          .ok ((flush.1.1 ++ tres.children ++ restRes.1,
                flush.1.2 ++ tres.skipped ++ restRes.2.1,
                tres.warnings ++ restRes.2.2), s2)
    else ibptGo env docToken allBlocks parentBlockId rest (buffer ++ [b]) s

/-- `insertBlocksPreservingTables` with final deduplication of skipped
names and warnings. -/
def insertBlocksPreservingTables (env : DocEnv) (docToken : String)
    (blocks allBlocks : List Block) (parentBlockId : Option String) (s : CallState) :
    Except String (InsertOutcome × CallState) :=
  match ibptGo env docToken allBlocks parentBlockId blocks [] s with
  | .error e => .error e
  | .ok (res, s1) =>
    .ok ({ children := res.1, skipped := dedupKeepFirst res.2.1,
           warnings := dedupKeepFirst res.2.2 }, s1)

/-! ## Conversion, clearing, image post-processing -/

/-- `convertMarkdown`: non-success status throws; otherwise the flat block
collection plus the top-level order list from the environment. -/
def convertMarkdown (env : DocEnv) : Except String (List Block × List String) :=
  if env.convertCode ≠ 0 then .error env.convertMsg
  else .ok (env.convertBlocks, env.convertFirstLevelIds)

/-- `clearDocumentContent`: list the document's blocks, select the direct
non-page children of the root, and delete that index range in one call. -/
def clearDocumentContent (env : DocEnv) (docToken : String) : Except String Nat :=
  if env.listCode ≠ 0 then .error env.listMsg
  else
    let childIds := (env.listItems.filter
      (fun b => b.parent_id == some docToken && b.block_type != 1)).map (fun b => b.block_id)
    if 0 < childIds.length then
      if env.deleteCode ≠ 0 then .error env.deleteMsg else .ok childIds.length
    else .ok childIds.length

/-- `new URL(url).pathname` for the http/https URLs reaching
`processImages`; a URL without a host throws, modelled as `none`. -/
def jsParseUrlPathname (url : String) : Option String :=
  let rest :=
    if strStartsWith url "http://" then some (strDrop url 7)
    else if strStartsWith url "https://" then some (strDrop url 8)
    else none
  match rest with
  | none => none
  | some r =>
    let cs := r.toList
    let hostLen := (cs.takeWhile (fun c => c ≠ '/' && c ≠ '?' && c ≠ '#')).length
    if hostLen = 0 then none
    else
      match cs.drop hostLen with
      | '/' :: tail => some (String.mk ('/' :: tail.takeWhile (fun c => c ≠ '?' && c ≠ '#')))
      | _ => some "/"

/-- One iteration of the `processImages` loop: download, derive a file
name from the URL path, upload scoped to the block, patch the block;
any failure in the chain fails only this pair. -/
def pairSucceeds (env : DocEnv) (docToken : String) (maxBytes : Nat) (i : Nat)
    (url : String) (blockId : Option String) : Bool :=
  match env.fetchMedia url maxBytes with
  | none => false
  | some buffer =>
    match jsParseUrlPathname url with
    | none => false
    | some urlPath =>
      let lastComp := String.mk (((splitSlash urlPath.toList).getLast?).getD [])
      let fileName := if lastComp = "" then "image_" ++ toString i ++ ".png" else lastComp
      match env.uploadMedia blockId buffer fileName with
      | none => false
      | some token => if token = "" then false else !env.patchThrows docToken blockId

/-- Counting loop of `processImages` over the positional URL/image-block
pairs (`zip` truncates at the shorter list, i.e. at `Math.min`). -/
def processImagesGo (env : DocEnv) (docToken : String) (maxBytes : Nat) :
    List (String × Block) → Nat → Nat
  | [], _ => 0
  | (url, b) :: rest, i =>
    (if pairSucceeds env docToken maxBytes i url b.block_id then 1 else 0) +
      processImagesGo env docToken maxBytes rest (i + 1)

/-- `processImages`: pair the i-th extracted URL with the i-th inserted
image-type block and count the pairs whose full chain succeeded. -/
def processImages (env : DocEnv) (docToken markdown : String)
    (insertedBlocks : List Block) (maxBytes : Nat) : Nat :=
  let imageUrls := extractImageUrls markdown
  if imageUrls.isEmpty then 0
  else
    let imageBlocks := insertedBlocks.filter (fun b => b.block_type == 27)
    processImagesGo env docToken maxBytes (imageUrls.zip imageBlocks) 0

/-! ## Orchestrator operations -/

/-- `ensureBlocksInserted` (doc-write-service.ts only): zero durably
inserted blocks against non-empty trimmed markdown is a terminal error. -/
def ensureBlocksInserted (mode markdown : String) (insertedCount : Nat)
    (skipped warnings : List String) : Except String Unit :=
  if (jsTrim markdown).length = 0 then .ok ()
  else if 0 < insertedCount then .ok ()
  else
    let d1 := if skipped.isEmpty then [] else ["skipped=" ++ String.intercalate ", " skipped]
    let d2 := if warnings.isEmpty then [] else ["warnings=" ++ String.intercalate " | " warnings]
    let details := d1 ++ d2
    let suffix := if details.isEmpty then "" else " (" ++ String.intercalate "; " details ++ ")"
    .error ("Document " ++ mode ++ " produced zero inserted blocks for non-empty content" ++
      suffix ++ ". Check markdown compatibility and granted scopes.")

/-- Result record of `writeDoc`. -/
structure WriteDocResult where
  success : Bool := true
  blocks_deleted : Nat
  blocks_added : Nat
  images_processed : Nat
  warning : Option String := none
deriving DecidableEq, Repr

/-- Result record of `appendDoc`. -/
structure AppendDocResult where
  success : Bool := true
  blocks_added : Nat
  images_processed : Nat
  block_ids : List (Option String)
  warning : Option String := none
deriving DecidableEq, Repr

/-- The `Skipped unsupported block types: ...` / reconciliation warning
summary shared by the write and append results. -/
def warningParts (skipped warnings : List String) : List String :=
  (if skipped.isEmpty then []
   else ["Skipped unsupported block types: " ++ String.intercalate ", " skipped ++ "."]) ++ warnings

/-- `writeDoc` from `doc-write-service.ts`: clear, convert (zero blocks
for non-empty content is terminal), reorder, insert preserving tables,
process images, then assert non-empty input implies non-zero insertion. -/
def writeDoc (env : DocEnv) (docToken markdown : String) (maxBytes : Nat) :
    Except String (WriteDocResult × CallState) :=
  match clearDocumentContent env docToken with
  | .error e => .error e
  | .ok deleted =>
    match convertMarkdown env with
    | .error e => .error e
    | .ok (blocks, firstLevelBlockIds) =>
      if blocks.isEmpty then
        if 0 < (jsTrim markdown).length then
          .error "Markdown conversion returned no blocks for non-empty content."
        else .ok ({ blocks_deleted := deleted, blocks_added := 0, images_processed := 0 }, ⟨0, []⟩)
      else
        let orderedBlocks := reorderBlocks blocks firstLevelBlockIds
        match insertBlocksPreservingTables env docToken orderedBlocks blocks none ⟨0, []⟩ with
        | .error e => .error e
        | .ok (outcome, s) =>
          let imagesProcessed := processImages env docToken markdown outcome.children maxBytes
          match ensureBlocksInserted "write" markdown outcome.children.length
              outcome.skipped outcome.warnings with
          | .error e => .error e
          | .ok _ =>
            let parts := warningParts outcome.skipped outcome.warnings
            .ok ({ blocks_deleted := deleted, blocks_added := outcome.children.length,
                   images_processed := imagesProcessed,
                   warning := if parts.isEmpty then none
                     else some (String.intercalate " " parts) }, s)

/-- `appendDoc` from `doc-write-service.ts`: same pipeline without the
clear step; zero conversion blocks is terminal regardless of input. -/
def appendDoc (env : DocEnv) (docToken markdown : String) (maxBytes : Nat) :
    Except String (AppendDocResult × CallState) :=
  match convertMarkdown env with
  | .error e => .error e
  | .ok (blocks, firstLevelBlockIds) =>
    if blocks.isEmpty then .error "Content is empty"
    else
      let orderedBlocks := reorderBlocks blocks firstLevelBlockIds
      match insertBlocksPreservingTables env docToken orderedBlocks blocks none ⟨0, []⟩ with
      | .error e => .error e
      | .ok (outcome, s) =>
        let imagesProcessed := processImages env docToken markdown outcome.children maxBytes
        match ensureBlocksInserted "append" markdown outcome.children.length
            outcome.skipped outcome.warnings with
        | .error e => .error e
        | .ok _ =>
          let parts := warningParts outcome.skipped outcome.warnings
          .ok ({ blocks_added := outcome.children.length,
                 images_processed := imagesProcessed,
                 block_ids := outcome.children.map (fun b => b.block_id),
                 warning := if parts.isEmpty then none
                   else some (String.intercalate " " parts) }, s)

/-- `writeDoc` from the near-duplicate legacy module `docx.ts`
(lines 523-573): identical pipeline except that a conversion yielding
zero blocks returns success unconditionally and there is no
`ensureBlocksInserted` guard before assembling the result. -/
def writeDocLegacy (env : DocEnv) (docToken markdown : String) (maxBytes : Nat) :
    Except String (WriteDocResult × CallState) :=
  match clearDocumentContent env docToken with
  | .error e => .error e
  | .ok deleted =>
    match convertMarkdown env with
    | .error e => .error e
    | .ok (blocks, firstLevelBlockIds) =>
      if blocks.isEmpty then
        .ok ({ blocks_deleted := deleted, blocks_added := 0, images_processed := 0 }, ⟨0, []⟩)
      else
        let orderedBlocks := reorderBlocks blocks firstLevelBlockIds
        match insertBlocksPreservingTables env docToken orderedBlocks blocks none ⟨0, []⟩ with
        | .error e => .error e
        | .ok (outcome, s) =>
          let imagesProcessed := processImages env docToken markdown outcome.children maxBytes
          let parts := warningParts outcome.skipped outcome.warnings
          .ok ({ blocks_deleted := deleted, blocks_added := outcome.children.length,
                 images_processed := imagesProcessed,
                 warning := if parts.isEmpty then none
                   else some (String.intercalate " " parts) }, s)

/-! ## Object-heap model of `cleanBlocksForInsert`

The pure `cleanBlocksForInsert` above cannot distinguish in-place
mutation from copying, so the mutation discipline of the source is
re-played on an explicit heap of JavaScript block objects: references are
addresses, `{ ...block }` allocates a fresh address, and every
field-mutating statement (`delete cleanedBlock.block_id`, …,
`cleanedBlock.table = …`) is a write to the address it targets.  Had the
source mutated `block` instead of `cleanedBlock`, the corresponding write
would hit the input address. -/

/-- A heap of block objects: partial map from addresses to values plus
the next fresh address (all live addresses are below `next`). -/
structure JsHeap where
  mem : Nat → Option Block
  next : Nat

/-- Overwrite the object at address `a`. -/
def heapWrite (h : JsHeap) (a : Nat) (b : Block) : JsHeap :=
  { h with mem := fun x => if x = a then some b else h.mem x }

/-- Allocate a fresh object, returning its address. -/
def heapAlloc (h : JsHeap) (b : Block) : JsHeap × Nat :=
  ({ mem := fun x => if x = h.next then some b else h.mem x, next := h.next + 1 }, h.next)

/-- Read-modify-write of the object at `a` (no-op on a dangling address). -/
def heapUpdate (h : JsHeap) (a : Nat) (f : Block → Block) : JsHeap :=
  match h.mem a with
  | some v => heapWrite h a (f v)
  | none => h

/-- Survivor step of the heap replay: `const cleanedBlock = { ...block }`
allocates the shallow copy, the three `delete` statements and the
conditional `cleanedBlock.table = { property: propertyRest }` assignment
are writes to that copy's address (`h.next`). -/
def cleanStepH (h : JsHeap) (b : Block) : JsHeap :=
  let alloc := heapAlloc h b
  let h2 := heapUpdate alloc.1 alloc.2 (fun v => { v with block_id := none })
  let h3 := heapUpdate h2 alloc.2 (fun v => { v with parent_id := none })
  let h4 := heapUpdate h3 alloc.2 (fun v => { v with children := none })
  heapUpdate h4 alloc.2 (fun v =>
    if v.block_type = 31 then
      match v.table with
      | some t =>
        let property := t.property.getD {}
        let propertyRest : TableProperty := { property with merge_info := none }
        { v with table := some { cells := none, property := some propertyRest } }
      | none => v
    else v)

/-- Heap replay of `cleanBlocksForInsert` over a list of block
references: unsupported-type blocks are recorded and dropped; each
survivor is shallow-copied to a fresh address and the copy is stripped
statement by statement.  `none` models the crash on a dangling
reference. -/
def cleanBlocksForInsertH (h : JsHeap) : List Nat → Option (JsHeap × List Nat × List String)
  | [] => some (h, [], [])
  | r :: rs =>
    match h.mem r with
    | none => none
    | some b =>
      if UNSUPPORTED_CREATE_TYPES.contains b.block_type then
        match cleanBlocksForInsertH h rs with
        | none => none
        | some (h1, cs, sk) => some (h1, cs, blockTypeName b.block_type :: sk)
      else
        match cleanBlocksForInsertH (cleanStepH h b) rs with
        | none => none
        | some (h1, cs, sk) => some (h1, h.next :: cs, sk)

/-! ## Helper lemmas -/

theorem length_filterMap_of_isSome {α β : Type} (f : α → Option β) :
    ∀ l : List α, (∀ a ∈ l, (f a).isSome) → (l.filterMap f).length = l.length := by
  intro l
  induction l with
  | nil => intro _; rfl
  | cons a t ih =>
    intro h
    have ha := h a (List.mem_cons_self a t)
    obtain ⟨b, hb⟩ := Option.isSome_iff_exists.mp ha
    have ht := ih (fun x hx => h x (List.mem_cons_of_mem a hx))
    simp [List.filterMap_cons, hb, ht]

/-! ## C2: `reorderBlocks` -/

/-- C2: for every block collection and every non-empty order list whose
ids all resolve, `reorderBlocks` returns exactly the resolved blocks in
order-list sequence (one per id); an empty order list returns the
collection unchanged; and a non-empty order list in which no id resolves
also returns the original collection. -/
theorem reorderBlocks_spec :
    (∀ blocks : List Block, reorderBlocks blocks [] = blocks) ∧
    (∀ (blocks : List Block) (ids : List String), ids ≠ [] →
      (∀ i ∈ ids, (blockMapFind blocks i).isSome) →
      reorderBlocks blocks ids = ids.filterMap (blockMapFind blocks) ∧
        (reorderBlocks blocks ids).length = ids.length) ∧
    (∀ (blocks : List Block) (ids : List String), ids ≠ [] →
      (∀ i ∈ ids, blockMapFind blocks i = none) →
      reorderBlocks blocks ids = blocks) := by
  refine ⟨?_, ?_, ?_⟩
  · intro blocks; simp [reorderBlocks]
  · intro blocks ids hne hres
    have hlen : (ids.filterMap (blockMapFind blocks)).length = ids.length :=
      length_filterMap_of_isSome _ ids hres
    have hpos : 0 < (ids.filterMap (blockMapFind blocks)).length := by
      rw [hlen]
      exact List.length_pos.mpr hne
    have hr : reorderBlocks blocks ids = ids.filterMap (blockMapFind blocks) := by
      simp only [reorderBlocks, List.isEmpty_iff, if_neg hne, if_pos hpos]
    exact ⟨hr, by rw [hr, hlen]⟩
  · intro blocks ids hne hnone
    have hnil : ids.filterMap (blockMapFind blocks) = [] :=
      List.filterMap_eq_nil_iff.mpr hnone
    simp only [reorderBlocks, List.isEmpty_iff, if_neg hne, hnil]
    simp

/-- Sample blocks used by concrete witnesses. -/
def blkA : Block := { block_type := 3, block_id := some "a" }

/-- Sample block. -/
def blkB : Block := { block_type := 2, block_id := some "b" }

/-- Sample block. -/
def blkC : Block := { block_type := 2, block_id := some "c" }

/-- Witness for C2: a shuffled collection with order `[a, b, c]` is
returned exactly in that order. -/
theorem reorderBlocks_spec_witness :
    (["a", "b", "c"] ≠ ([] : List String)) ∧
    reorderBlocks [blkB, blkC, blkA] ["a", "b", "c"] =
      (["a", "b", "c"].filterMap (blockMapFind [blkB, blkC, blkA])) ∧
    (reorderBlocks [blkB, blkC, blkA] ["a", "b", "c"]).length = 3 :=
  ⟨by decide,
   (reorderBlocks_spec.2.1 [blkB, blkC, blkA] ["a", "b", "c"] (by decide) (by decide)).1,
   (reorderBlocks_spec.2.1 [blkB, blkC, blkA] ["a", "b", "c"] (by decide) (by decide)).2⟩

/-! ## C9: `isRetryableCreateError` code gate -/

/-- C9: an absent or zero error code is never retryable regardless of the
message; a known retryable code is always retryable; and for a non-zero
code outside the known set the classification equals the message-pattern
test on `msg ?? ""`. -/
theorem isRetryableCreateError_code_gate :
    (∀ msg : Option String, isRetryableCreateError none msg = false) ∧
    (∀ msg : Option String, isRetryableCreateError (some 0) msg = false) ∧
    (∀ (c : Int) (msg : Option String), c ∈ RETRYABLE_CREATE_ERROR_CODES →
      isRetryableCreateError (some c) msg = true) ∧
    (∀ (c : Int) (msg : Option String), c ≠ 0 → c ∉ RETRYABLE_CREATE_ERROR_CODES →
      isRetryableCreateError (some c) msg = matchesRetryableMessage (msg.getD "")) := by
  refine ⟨fun msg => rfl, fun msg => rfl, ?_, ?_⟩
  · intro c msg hc
    have hz : c ≠ 0 := by
      have hd : c = 429 ∨ c = 1254290 ∨ c = 1254291 ∨ c = 1255040 := by
        simpa [RETRYABLE_CREATE_ERROR_CODES] using hc
      rcases hd with h | h | h | h <;> simp [h]
    simp only [isRetryableCreateError, if_neg hz]
    simp [hc]
  · intro c msg hz hmem
    simp only [isRetryableCreateError, if_neg hz]
    simp [hmem]

/-- Witness for C9: code 429 is retryable with an arbitrary message, and
an unknown non-zero code defers to the message patterns. -/
theorem isRetryableCreateError_code_gate_witness :
    ((429 : Int) ∈ RETRYABLE_CREATE_ERROR_CODES) ∧
    isRetryableCreateError (some 429) (some "boom") = true ∧
    isRetryableCreateError (some 99999) (some "too many requests") =
      matchesRetryableMessage "too many requests" :=
  ⟨by decide,
   isRetryableCreateError_code_gate.2.2.1 429 (some "boom") (by decide),
   isRetryableCreateError_code_gate.2.2.2 99999 (some "too many requests")
     (by decide) (by decide)⟩

/-! ## C6: retry wrapper bound and backoff delay bounds -/

/-- `Math.round` maps `[0, 3000]` into `[0, 3000]`. -/
theorem jsRound_bounds (q : ℚ) (hq0 : 0 ≤ q) (hq : q ≤ 3000) :
    0 ≤ jsRound q ∧ jsRound q ≤ 3000 := by
  unfold jsRound
  constructor
  · exact Int.le_floor.mpr (by push_cast; linarith)
  · have h : (⌊q + 1 / 2⌋ : ℤ) < 3001 := Int.floor_lt.mpr (by push_cast; linarith)
    omega

/-- C6: an operation whose result is classified retryable (and
non-successful) on every attempt is invoked exactly `maxAttempts = 4`
times and the wrapper returns the fourth attempt's result (instead of
raising); and every backoff delay computed for an attempt is between 0
and `maxDelayMs * (1 + jitterRatio) = 3000` ms for any jitter draw in
`[0, 1]`. -/
theorem executeWithBackoff_bounds :
    (∀ (T : Type) (results : Nat → T) (isSucc shouldRetry : T → Bool),
      (∀ t, isSucc (results t) = false) → (∀ t, shouldRetry (results t) = true) →
      executeWithBackoff (fun n => (results n, n + 1)) isSucc shouldRetry
        policyMaxAttempts 0 = some (results 3, 4)) ∧
    (∀ (attempt : Nat) (rand : ℚ), 1 ≤ attempt → 0 ≤ rand → rand ≤ 1 →
      0 ≤ computeBackoffDelayMs attempt rand ∧ computeBackoffDelayMs attempt rand ≤ 3000) := by
  constructor
  · intro T results isSucc shouldRetry hs hr
    simp [executeWithBackoff, policyMaxAttempts, ewbAux, hs, hr]
  · intro attempt rand _ h0 h1
    set e := min policyMaxDelayMs (policyBaseDelayMs * 2 ^ (attempt - 1)) with he
    set lo := max 0 (e - e * policyJitter) with hlo
    set hi := e + e * policyJitter with hhi
    have hval : computeBackoffDelayMs attempt rand = jsRound (lo + rand * (hi - lo)) := rfl
    have hep : (0 : ℚ) ≤ e := by
      rw [he]
      apply le_min
      · norm_num [policyMaxDelayMs]
      · rw [show policyBaseDelayMs = (250 : ℚ) from rfl]
        positivity
    have hecap : e ≤ 2500 := by
      calc e ≤ policyMaxDelayMs := by rw [he]; exact min_le_left _ _
        _ = 2500 := rfl
    have hj : policyJitter = 1 / 5 := rfl
    have hjit : (0 : ℚ) ≤ e * policyJitter := by rw [hj]; linarith
    have hjcap : e * policyJitter ≤ 500 := by rw [hj]; linarith
    have hlo0 : (0 : ℚ) ≤ lo := le_max_left 0 _
    have hlohi : lo ≤ hi := by
      rw [hlo, hhi]
      apply max_le <;> linarith
    have hhicap : hi ≤ 3000 := by rw [hhi]; linarith
    have hd : (0 : ℚ) ≤ hi - lo := by linarith
    have hprod0 : (0 : ℚ) ≤ rand * (hi - lo) := mul_nonneg h0 hd
    have hprod1 : rand * (hi - lo) ≤ hi - lo := by nlinarith
    rw [hval]
    exact jsRound_bounds _ (by linarith) (by linarith)

/-- Witness for C6: a constantly retryable operation is invoked exactly
4 times, and the attempt-2 delay with a middle jitter draw is within
bounds. -/
theorem executeWithBackoff_bounds_witness :
    executeWithBackoff (fun n => ((0 : Nat), n + 1)) (fun _ => false) (fun _ => true)
      policyMaxAttempts 0 = some (0, 4) ∧
    (0 ≤ computeBackoffDelayMs 2 (1 / 2) ∧ computeBackoffDelayMs 2 (1 / 2) ≤ 3000) :=
  ⟨executeWithBackoff_bounds.1 Nat (fun _ => 0) (fun _ => false) (fun _ => true)
      (fun _ => rfl) (fun _ => rfl),
   executeWithBackoff_bounds.2 2 (1 / 2) (by norm_num) (by norm_num) (by norm_num)⟩

/-! ## C8: positional image pairing -/

/-- Environment where every remote interaction succeeds (create calls
echo their payload, media downloads and uploads succeed). -/
def okImageEnv : DocEnv :=
  { create := fun _ c => { code := 0, msg := "", children := c.children },
    fetchMedia := fun _ _ => some "bytes",
    uploadMedia := fun _ _ _ => some "tok" }

/-- Environment where downloading the first image URL fails and
everything else succeeds. -/
def failFirstImageEnv : DocEnv :=
  { create := fun _ c => { code := 0, msg := "", children := c.children },
    fetchMedia := fun u _ => if u = "https://h.io/1.png" then none else some "bytes",
    uploadMedia := fun _ _ _ => some "tok" }

/-- Index-threaded characterisation of the `processImages` loop. -/
theorem processImagesGo_eq_filter_length (env : DocEnv) (d : String) (mb : Nat) :
    ∀ (l : List (String × Block)) (i : Nat),
      processImagesGo env d mb l i =
        ((l.enumFrom i).filter
          (fun q => pairSucceeds env d mb q.1 q.2.1 q.2.2.block_id)).length := by
  intro l
  induction l with
  | nil => intro i; rfl
  | cons p rest ih =>
    intro i
    rcases p with ⟨url, b⟩
    cases hp : pairSucceeds env d mb i url b.block_id
    · simpa [processImagesGo, List.enumFrom, List.filter_cons, hp] using ih (i + 1)
    · have ht := ih (i + 1)
      simp only [processImagesGo, List.enumFrom, List.filter_cons, hp, if_pos,
        List.length_cons, ht]
      omega

/-- C8: `processImages` pairs the i-th extracted URL with the i-th
inserted image-type block, up to the shorter list (`zip`), and returns
exactly the number of index/URL/block triples whose
download-upload-patch chain succeeded; a failing pair does not abort
the later pairs.  The second conjunct instantiates the spec's example:
3 image URLs against a single inserted image block process exactly one
pair; the third shows a failing first pair still lets the second pair
count. -/
theorem processImages_positional_pairing :
    (∀ (env : DocEnv) (docToken markdown : String) (insertedBlocks : List Block)
       (maxBytes : Nat),
      processImages env docToken markdown insertedBlocks maxBytes =
        (((extractImageUrls markdown).zip
            (insertedBlocks.filter (fun b => b.block_type == 27))).enum.filter
          (fun q => pairSucceeds env docToken maxBytes q.1 q.2.1 q.2.2.block_id)).length ∧
      ((extractImageUrls markdown).zip
          (insertedBlocks.filter (fun b => b.block_type == 27))).length =
        min (extractImageUrls markdown).length
          (insertedBlocks.filter (fun b => b.block_type == 27)).length) ∧
    processImages okImageEnv "doc"
      "![a](https://h.io/1.png) ![b](https://h.io/2.png) ![c](https://h.io/3.png)"
      [{ block_type := 27, block_id := some "i1" }] 100 = 1 ∧
    processImages failFirstImageEnv "doc"
      "![a](https://h.io/1.png) ![b](https://h.io/2.png)"
      [{ block_type := 27, block_id := some "i1" },
       { block_type := 27, block_id := some "i2" }] 100 = 1 := by
  refine ⟨?_, by decide, by decide⟩
  intro env docToken markdown insertedBlocks maxBytes
  constructor
  · cases h : (extractImageUrls markdown).isEmpty
    · have heq := processImagesGo_eq_filter_length env docToken maxBytes
        ((extractImageUrls markdown).zip
          (insertedBlocks.filter (fun b => b.block_type == 27))) 0
      simpa [processImages, h] using heq
    · have hnil : extractImageUrls markdown = [] := List.isEmpty_iff.mp h
      simp [processImages, h, hnil]
  · exact List.length_zip _ _

/-! ## C10: `cleanBlocksForInsert` never mutates its input -/

theorem heapUpdate_next (h : JsHeap) (a : Nat) (f : Block → Block) :
    (heapUpdate h a f).next = h.next := by
  unfold heapUpdate heapWrite
  cases h.mem a <;> rfl

theorem heapUpdate_mem_ne (h : JsHeap) (a : Nat) (f : Block → Block) (x : Nat) (hx : x ≠ a) :
    (heapUpdate h a f).mem x = h.mem x := by
  unfold heapUpdate heapWrite
  cases h.mem a <;> simp [hx]

theorem cleanStepH_next (h : JsHeap) (b : Block) : (cleanStepH h b).next = h.next + 1 := by
  simp only [cleanStepH, heapUpdate_next]
  rfl

theorem cleanStepH_mem_lt (h : JsHeap) (b : Block) (x : Nat) (hx : x < h.next) :
    (cleanStepH h b).mem x = h.mem x := by
  have hne : x ≠ h.next := Nat.ne_of_lt hx
  have hne2 : x ≠ (heapAlloc h b).2 := hne
  simp only [cleanStepH]
  rw [heapUpdate_mem_ne _ _ _ _ hne2, heapUpdate_mem_ne _ _ _ _ hne2,
    heapUpdate_mem_ne _ _ _ _ hne2, heapUpdate_mem_ne _ _ _ _ hne2]
  simp [heapAlloc, hne]

/-- Frame property of the heap replay: every write lands at or above the
original allocation frontier, so all pre-existing addresses keep their
values and all returned cleaned references are fresh. -/
theorem cleanBlocksForInsertH_frame :
    ∀ (refs : List Nat) (h h1 : JsHeap) (cs : List Nat) (sk : List String),
      cleanBlocksForInsertH h refs = some (h1, cs, sk) →
      h.next ≤ h1.next ∧ (∀ x, x < h.next → h1.mem x = h.mem x) ∧
        (∀ a ∈ cs, h.next ≤ a) := by
  intro refs
  induction refs with
  | nil =>
    intro h h1 cs sk heq
    simp only [cleanBlocksForInsertH, Option.some.injEq, Prod.mk.injEq] at heq
    obtain ⟨hh, hcs, hsk⟩ := heq
    subst hh
    subst hcs
    exact ⟨le_refl _, fun x _ => rfl, by simp⟩
  | cons r rs ih =>
    intro h h1 cs sk heq
    simp only [cleanBlocksForInsertH] at heq
    split at heq
    · cases heq
    · rename_i b hm
      split at heq
      · split at heq
        · cases heq
        · rename_i h2 cs2 sk2 hrec
          simp only [Option.some.injEq, Prod.mk.injEq] at heq
          obtain ⟨hh, hcs, hsk⟩ := heq
          subst hh
          subst hcs
          exact ih _ _ _ _ hrec
      · split at heq
        · cases heq
        · rename_i h2 cs2 sk2 hrec
          simp only [Option.some.injEq, Prod.mk.injEq] at heq
          obtain ⟨hh, hcs, hsk⟩ := heq
          subst hh
          subst hcs
          obtain ⟨hle, hmem, hfresh⟩ := ih _ _ _ _ hrec
          rw [cleanStepH_next] at hle hmem
          refine ⟨by omega, ?_, ?_⟩
          · intro x hx
            rw [hmem x (by omega), cleanStepH_mem_lt h b x hx]
          · intro a ha
            rcases List.mem_cons.mp ha with hhd | htl
            · omega
            · have hf := hfresh a htl
              rw [cleanStepH_next] at hf
              omega

/-- C10: replaying `cleanBlocksForInsert` on an explicit object heap
leaves every input block object untouched (in particular its `block_id`,
`parent_id`, `children` and table merge metadata), performing all
stripping on freshly allocated shallow copies (the returned cleaned
references all lie at or above the old allocation frontier). -/
theorem cleanBlocksForInsert_no_input_mutation :
    ∀ (refs : List Nat) (h h1 : JsHeap) (cs : List Nat) (sk : List String),
      (∀ r ∈ refs, r < h.next) →
      cleanBlocksForInsertH h refs = some (h1, cs, sk) →
      (∀ r ∈ refs, h1.mem r = h.mem r) ∧ (∀ a ∈ cs, h.next ≤ a) := by
  intro refs h h1 cs sk hvalid heq
  obtain ⟨_, hmem, hfresh⟩ := cleanBlocksForInsertH_frame refs h h1 cs sk heq
  exact ⟨fun r hr => hmem r (hvalid r hr), hfresh⟩

/-- Table-cell block stored at address 0 of the witness heap. -/
def witnessCellBlock : Block :=
  { block_type := 32, block_id := some "c0", parent_id := some "p" }

/-- Table property with merge metadata for the witness heap. -/
def witnessTableProp : TableProperty :=
  { row_size := some 1, column_size := some 1, merge_info := some [(0, 0)] }

/-- Table block stored at address 1 of the witness heap. -/
def witnessTableBlock : Block :=
  { block_type := 31, block_id := some "t1", children := some ["c0"],
    table := some { cells := some ["c0"], property := some witnessTableProp } }

/-- Two-object heap used by the C10 witness: a table-cell block at
address 0 and a table block (with cells and merge metadata) at 1. -/
def witnessHeap : JsHeap :=
  { mem := fun x =>
      if x = 0 then some witnessCellBlock
      else if x = 1 then some witnessTableBlock
      else none,
    next := 2 }

/-- Witness for C10: on the concrete two-object heap the replay succeeds
and both input addresses keep their exact values while the cleaned
references are fresh. -/
theorem cleanBlocksForInsert_no_input_mutation_witness :
    (∀ r ∈ [0, 1], r < witnessHeap.next) ∧
    (cleanBlocksForInsertH witnessHeap [0, 1]).elim False
      (fun t => (∀ r ∈ [0, 1], t.1.mem r = witnessHeap.mem r) ∧
        (∀ a ∈ t.2.1, witnessHeap.next ≤ a)) := by
  refine ⟨by decide, ?_⟩
  have hs : (cleanBlocksForInsertH witnessHeap [0, 1]).isSome = true := by decide
  obtain ⟨t, ht⟩ := Option.isSome_iff_exists.mp hs
  rw [ht]
  exact cleanBlocksForInsert_no_input_mutation [0, 1] witnessHeap t.1 t.2.1 t.2.2
    (by decide) (by rw [ht])

/-! ## Helper lemmas on the call layer (shared by the batching claims) -/

theorem mem_dedupKeepFirst (a : String) : ∀ l : List String, a ∈ dedupKeepFirst l ↔ a ∈ l := by
  intro l
  induction l with
  | nil => simp [dedupKeepFirst]
  | cons x xs ih =>
    by_cases hax : a = x
    · simp [dedupKeepFirst, hax]
    · simp [dedupKeepFirst, List.mem_filter, ih, hax]

theorem stripForInsert_block_type (b : Block) :
    (stripForInsert b).block_type = b.block_type := by
  simp only [stripForInsert]
  split
  · split <;> rfl
  · rfl

theorem cleaned_not_unsupported (b : Block) (l : List Block)
    (hb : b ∈ (cleanBlocksForInsert l).1) :
    UNSUPPORTED_CREATE_TYPES.contains b.block_type = false := by
  simp only [cleanBlocksForInsert] at hb
  obtain ⟨a, ha, hab⟩ := List.mem_map.mp hb
  obtain ⟨_, hap⟩ := List.mem_filter.mp ha
  rw [← hab, stripForInsert_block_type]
  simpa using hap

theorem skipped_of_unsupported (b : Block) (l : List Block) (hb : b ∈ l)
    (hu : UNSUPPORTED_CREATE_TYPES.contains b.block_type = true) :
    blockTypeName b.block_type ∈ (cleanBlocksForInsert l).2 := by
  simp only [cleanBlocksForInsert]
  exact List.mem_map_of_mem _ (List.mem_filter.mpr ⟨hb, hu⟩)

theorem cleaned_length_le (l : List Block) :
    (cleanBlocksForInsert l).1.length ≤ l.length := by
  simp only [cleanBlocksForInsert, List.length_map]
  exact List.length_filter_le _ _

theorem ewbAux_isSome {σ T : Type} (op : σ → T × σ) (isS shouldR : T → Bool) (maxA : Nat) :
    ∀ (fuel attempt : Nat) (s : σ), attempt + fuel = maxA + 1 → 0 < fuel →
      (ewbAux op isS shouldR maxA fuel attempt s).isSome = true := by
  intro fuel
  induction fuel with
  | zero => intro attempt s _ h0; omega
  | succ fuel ih =>
    intro attempt s hsum _
    simp only [ewbAux]
    split
    · rfl
    · split
      · rfl
      · rename_i hcond
        simp only [Bool.or_eq_true, Bool.not_eq_eq_eq_not, beq_iff_eq] at hcond
        have hne : attempt ≠ maxA := by
          intro hx
          exact hcond (Or.inr (by simp [hx]))
        exact ih (attempt + 1) _ (by omega) (by omega)

theorem ewbAux_log (env : DocEnv) (d bid : String) (cs : List Block)
    (isS shouldR : CreateResponse → Bool) (maxA : Nat) :
    ∀ (fuel attempt : Nat) (s : CallState) (r : CreateResponse) (s1 : CallState),
      ewbAux (createChildrenOp env d bid cs) isS shouldR maxA fuel attempt s = some (r, s1) →
      ∃ n, 0 < n ∧ s1.count = s.count + n ∧
        s1.log = s.log ++ List.replicate n ⟨d, bid, cs⟩ := by
  intro fuel
  induction fuel with
  | zero => intro attempt s r s1 heq; cases heq
  | succ fuel ih =>
    intro attempt s r s1 heq
    simp only [ewbAux, createChildrenOp] at heq
    split at heq
    · simp only [Option.some.injEq, Prod.mk.injEq] at heq
      obtain ⟨_, hs1⟩ := heq
      exact ⟨1, by omega, by simp [← hs1], by simp [← hs1]⟩
    · split at heq
      · simp only [Option.some.injEq, Prod.mk.injEq] at heq
        obtain ⟨_, hs1⟩ := heq
        exact ⟨1, by omega, by simp [← hs1], by simp [← hs1]⟩
      · have hrec := ih (attempt + 1)
          { count := s.count + 1, log := s.log ++ [⟨d, bid, cs⟩] } r s1 (by
            simpa [createChildrenOp] using heq)
        obtain ⟨n, hn, hc, hl⟩ := hrec
        refine ⟨n + 1, by omega, by simp at hc; omega, ?_⟩
        rw [hl]
        simp [List.replicate_succ, List.append_assoc]

theorem createChildrenWithRetry_log (env : DocEnv) (d bid : String) (cs : List Block)
    (s : CallState) :
    ∃ n, 0 < n ∧ (createChildrenWithRetry env d bid cs s).2.count = s.count + n ∧
      (createChildrenWithRetry env d bid cs s).2.log =
        s.log ++ List.replicate n ⟨d, bid, cs⟩ := by
  have hs := ewbAux_isSome (createChildrenOp env d bid cs) (fun r => r.code == 0)
    (fun r => isRetryableCreateError (some r.code) (some r.msg)) policyMaxAttempts
    policyMaxAttempts 1 s (by norm_num [policyMaxAttempts]) (by norm_num [policyMaxAttempts])
  obtain ⟨t, ht⟩ := Option.isSome_iff_exists.mp hs
  obtain ⟨r1, s1⟩ := t
  obtain ⟨n, hn, hc, hl⟩ := ewbAux_log env d bid cs _ _ _ _ _ _ _ _ ht
  refine ⟨n, hn, ?_, ?_⟩
  · unfold createChildrenWithRetry executeWithBackoff
    rw [ht]
    simpa using hc
  · unfold createChildrenWithRetry executeWithBackoff
    rw [ht]
    simpa using hl

theorem ewbAux_first {σ T : Type} (op : σ → T × σ) (isS shouldR : T → Bool)
    (maxA f attempt : Nat) (s : σ)
    (h : isS (op s).1 = true ∨ shouldR (op s).1 = false) :
    ewbAux op isS shouldR maxA (f + 1) attempt s = some (op s) := by
  simp only [ewbAux]
  rcases h with h | h
  · simp [h]
  · by_cases hs : isS (op s).1 = true
    · simp [hs]
    · simp [hs, h]

theorem createChildrenWithRetry_once (env : DocEnv) (d bid : String) (cs : List Block)
    (s : CallState)
    (h : (env.create s.count ⟨d, bid, cs⟩).code = 0 ∨
      isRetryableCreateError (some (env.create s.count ⟨d, bid, cs⟩).code)
        (some (env.create s.count ⟨d, bid, cs⟩).msg) = false) :
    createChildrenWithRetry env d bid cs s =
      (env.create s.count ⟨d, bid, cs⟩,
        { count := s.count + 1, log := s.log ++ [⟨d, bid, cs⟩] }) := by
  have hop : createChildrenOp env d bid cs s =
      (env.create s.count ⟨d, bid, cs⟩,
        { count := s.count + 1, log := s.log ++ [⟨d, bid, cs⟩] }) := rfl
  have h4 : policyMaxAttempts = 3 + 1 := rfl
  unfold createChildrenWithRetry executeWithBackoff
  rw [h4, ewbAux_first]
  · simp [hop]
  · rw [hop]
    rcases h with h | h
    · left; simp [h]
    · right; exact h

/-- Children accumulated by the degraded per-block insertion loop, as a
function of the environment's responses from call index `k` on. -/
def expectedSingles (env : DocEnv) (d bid : String) : List Block → Nat → List Block
  | [], _ => []
  | b :: bs, k =>
    (if (env.create k ⟨d, bid, [b]⟩).code = 0 then (env.create k ⟨d, bid, [b]⟩).children
     else []) ++ expectedSingles env d bid bs (k + 1)

theorem singlesGo_log (env : DocEnv) (d bid : String) :
    ∀ (bs : List Block) (s : CallState) (call : CreateCall),
      call ∈ (singlesGo env d bid bs s).2.log →
      call ∈ s.log ∨ ∃ b ∈ bs, call = ⟨d, bid, [b]⟩ := by
  intro bs
  induction bs with
  | nil => intro s call h; exact Or.inl h
  | cons b bs ih =>
    intro s call h
    have key : (singlesGo env d bid (b :: bs) s).2 =
        (singlesGo env d bid bs (createChildrenWithRetry env d bid [b] s).2).2 := rfl
    rw [key] at h
    rcases ih _ call h with hin | hex
    · obtain ⟨n, _, _, hl⟩ := createChildrenWithRetry_log env d bid [b] s
      rw [hl] at hin
      rcases List.mem_append.mp hin with h1 | h1
      · exact Or.inl h1
      · exact Or.inr ⟨b, List.mem_cons_self b bs, List.eq_of_mem_replicate h1⟩
    · obtain ⟨b1, hb1, hc⟩ := hex
      exact Or.inr ⟨b1, List.mem_cons_of_mem b hb1, hc⟩

theorem singlesGo_run (env : DocEnv) (d bid : String)
    (hI : ∀ (k : Nat) (c : CreateCall), (env.create k c).code = 0 ∨
      isRetryableCreateError (some (env.create k c).code) (some (env.create k c).msg) = false) :
    ∀ (bs : List Block) (s : CallState),
      singlesGo env d bid bs s =
        (expectedSingles env d bid bs s.count,
          { count := s.count + bs.length,
            log := s.log ++ bs.map (fun b => ⟨d, bid, [b]⟩) }) := by
  intro bs
  induction bs with
  | nil => intro s; simp [singlesGo, expectedSingles]
  | cons b bs ih =>
    intro s
    have hone := createChildrenWithRetry_once env d bid [b] s (hI s.count _)
    simp only [singlesGo, hone, expectedSingles]
    rw [ih]
    simp only [Prod.mk.injEq, CallState.mk.injEq, List.length_cons]
    refine ⟨trivial, by omega, ?_⟩
    simp [List.append_assoc]

theorem processChunk_skipped (env : DocEnv) (d bid : String) (batch : List Block)
    (s : CallState) :
    (processChunk env d bid batch s).1.2 = (cleanBlocksForInsert batch).2 := by
  simp only [processChunk]
  split
  · rfl
  · split <;> rfl

theorem processChunk_log (env : DocEnv) (d bid : String) (batch : List Block)
    (s : CallState) :
    ∀ call ∈ (processChunk env d bid batch s).2.log,
      call ∈ s.log ∨
        (call.document_id = d ∧ call.block_id = bid ∧
          call.children.length ≤ batch.length ∧
          ∀ b ∈ call.children, UNSUPPORTED_CREATE_TYPES.contains b.block_type = false) := by
  intro call hcall
  simp only [processChunk] at hcall
  split at hcall
  · exact Or.inl hcall
  · rename_i hne
    have hmem_batchcall : ∀ s0 : CallState, call ∈ (createChildrenWithRetry env d bid
        (cleanBlocksForInsert batch).1 s0).2.log → call ∈ s0.log ∨
        (call.document_id = d ∧ call.block_id = bid ∧
          call.children.length ≤ batch.length ∧
          ∀ b ∈ call.children, UNSUPPORTED_CREATE_TYPES.contains b.block_type = false) := by
      intro s0 hin
      obtain ⟨n, _, _, hl⟩ := createChildrenWithRetry_log env d bid _ s0
      rw [hl] at hin
      rcases List.mem_append.mp hin with h1 | h1
      · exact Or.inl h1
      · have hcallEq := List.eq_of_mem_replicate h1
        subst hcallEq
        exact Or.inr ⟨rfl, rfl, cleaned_length_le batch,
          fun b hb => cleaned_not_unsupported b batch hb⟩
    split at hcall
    · exact hmem_batchcall s hcall
    · rcases singlesGo_log env d bid _ _ call hcall with hin | hex
      · exact hmem_batchcall s hin
      · obtain ⟨b, hb, hc⟩ := hex
        subst hc
        refine Or.inr ⟨rfl, rfl, ?_, ?_⟩
        · have h1 : 0 < (cleanBlocksForInsert batch).1.length :=
            List.length_pos.mpr (by simpa [List.isEmpty_iff] using hne)
          have h2 := cleaned_length_le batch
          simp only [List.length_singleton]
          omega
        · intro x hx
          rw [List.mem_singleton.mp hx]
          exact cleaned_not_unsupported b batch hb

theorem ibbGo_succ_eq (env : DocEnv) (d bid : String) (fuel : Nat) (blocks : List Block)
    (s : CallState) :
    ibbGo env d bid (fuel + 1) blocks s =
      if blocks.isEmpty then (([], []), s)
      else
        (((processChunk env d bid (blocks.take MAX_BLOCKS_PER_INSERT) s).1.1 ++
            (ibbGo env d bid fuel (blocks.drop MAX_BLOCKS_PER_INSERT)
              (processChunk env d bid (blocks.take MAX_BLOCKS_PER_INSERT) s).2).1.1,
          (processChunk env d bid (blocks.take MAX_BLOCKS_PER_INSERT) s).1.2 ++
            (ibbGo env d bid fuel (blocks.drop MAX_BLOCKS_PER_INSERT)
              (processChunk env d bid (blocks.take MAX_BLOCKS_PER_INSERT) s).2).1.2),
         (ibbGo env d bid fuel (blocks.drop MAX_BLOCKS_PER_INSERT)
            (processChunk env d bid (blocks.take MAX_BLOCKS_PER_INSERT) s).2).2) := rfl

theorem ibbGo_nil (env : DocEnv) (d bid : String) :
    ∀ (fuel : Nat) (s : CallState), ibbGo env d bid fuel [] s = (([], []), s) := by
  intro fuel s
  cases fuel <;> rfl

theorem ibbGo_log_spec (env : DocEnv) (d bid : String) :
    ∀ (fuel : Nat) (blocks : List Block) (s : CallState) (call : CreateCall),
      call ∈ (ibbGo env d bid fuel blocks s).2.log →
      call ∈ s.log ∨
        (call.document_id = d ∧ call.block_id = bid ∧
          call.children.length ≤ MAX_BLOCKS_PER_INSERT ∧
          ∀ b ∈ call.children, UNSUPPORTED_CREATE_TYPES.contains b.block_type = false) := by
  intro fuel
  induction fuel with
  | zero => intro blocks s call h; exact Or.inl h
  | succ fuel ih =>
    intro blocks s call h
    by_cases hb : blocks.isEmpty
    · rw [ibbGo_succ_eq, if_pos hb] at h
      exact Or.inl h
    · rw [ibbGo_succ_eq, if_neg hb] at h
      rcases ih _ _ call h with hin | hgood
      · rcases processChunk_log env d bid _ s call hin with h2 | h2
        · exact Or.inl h2
        · obtain ⟨hd, hb2, hlen2, hcl⟩ := h2
          refine Or.inr ⟨hd, hb2, le_trans hlen2 ?_, hcl⟩
          exact le_trans (Nat.le_of_eq (List.length_take _ _)) (min_le_left _ _)
      · exact Or.inr hgood

theorem ibbGo_skipped (env : DocEnv) (d bid : String) :
    ∀ (fuel : Nat) (blocks : List Block) (s : CallState) (b : Block),
      blocks.length ≤ fuel → b ∈ blocks →
      UNSUPPORTED_CREATE_TYPES.contains b.block_type = true →
      blockTypeName b.block_type ∈ (ibbGo env d bid fuel blocks s).1.2 := by
  intro fuel
  induction fuel with
  | zero =>
    intro blocks s b hlen hb _
    have hnil : blocks = [] := List.length_eq_zero.mp (Nat.le_zero.mp hlen)
    subst hnil
    cases hb
  | succ fuel ih =>
    intro blocks s b hlen hb hu
    have hbne : ¬blocks.isEmpty = true := by
      intro hx
      rw [List.isEmpty_iff.mp hx] at hb
      cases hb
    rw [ibbGo_succ_eq, if_neg hbne]
    have hsplit : b ∈ blocks.take MAX_BLOCKS_PER_INSERT ++ blocks.drop MAX_BLOCKS_PER_INSERT := by
      rw [List.take_append_drop]
      exact hb
    rcases List.mem_append.mp hsplit with h1 | h1
    · apply List.mem_append_left
      rw [processChunk_skipped]
      exact skipped_of_unsupported b _ h1 hu
    · apply List.mem_append_right
      have hpos : 0 < blocks.length := List.length_pos.mpr (by
        intro hx
        rw [hx] at hb
        cases hb)
      refine ih _ _ b ?_ h1 hu
      simp only [List.length_drop, MAX_BLOCKS_PER_INSERT]
      omega

/-! ## C3, C4, C5: batching claims -/

/-- Text block used in concrete batching scenarios. -/
def textBlock : Block := { block_type := 2, block_id := some "tx" }

/-- Table-cell block (unsupported for create) used in concrete scenarios. -/
def tcellBlock : Block := { block_type := 32, block_id := some "tc" }

/-- Environment whose create calls always succeed, echoing the payload. -/
def envOK : DocEnv :=
  { create := fun _ c => { code := 0, msg := "", children := c.children } }

/-- C3: no block of an unsupported create type ever survives sanitation,
no payload logged by `insertBlocksInBatches` contains one, and every
unsupported input block's type name lands in the returned skipped set. -/
theorem unsupported_blocks_never_submitted :
    (∀ (blocks : List Block) (b : Block), b ∈ (cleanBlocksForInsert blocks).1 →
      UNSUPPORTED_CREATE_TYPES.contains b.block_type = false) ∧
    (∀ (env : DocEnv) (d : String) (blocks : List Block) (pid : Option String)
       (s : CallState) (call : CreateCall) (b : Block),
      call ∈ (insertBlocksInBatches env d blocks pid s).2.log → call ∉ s.log →
      b ∈ call.children → UNSUPPORTED_CREATE_TYPES.contains b.block_type = false) ∧
    (∀ (env : DocEnv) (d : String) (blocks : List Block) (pid : Option String)
       (s : CallState) (b : Block), b ∈ blocks →
      UNSUPPORTED_CREATE_TYPES.contains b.block_type = true →
      blockTypeName b.block_type ∈ (insertBlocksInBatches env d blocks pid s).1.2) := by
  refine ⟨fun blocks b hb => cleaned_not_unsupported b blocks hb, ?_, ?_⟩
  · intro env d blocks pid s call b hcall hnot hb
    have h2 : (insertBlocksInBatches env d blocks pid s).2 =
        (ibbGo env d (pid.getD d) blocks.length blocks s).2 := rfl
    rw [h2] at hcall
    rcases ibbGo_log_spec env d (pid.getD d) blocks.length blocks s call hcall with h | h
    · exact absurd h hnot
    · exact h.2.2.2 b hb
  · intro env d blocks pid s b hb hu
    have h1 : (insertBlocksInBatches env d blocks pid s).1.2 =
        dedupKeepFirst (ibbGo env d (pid.getD d) blocks.length blocks s).1.2 := rfl
    rw [h1, mem_dedupKeepFirst]
    exact ibbGo_skipped env d (pid.getD d) blocks.length blocks s b (le_refl _) hb hu

/-- Witness for C3: on a collection containing a table-cell block, the
skipped set of a concrete run records `TableCell`, and the one logged
payload contains no unsupported block. -/
theorem unsupported_blocks_never_submitted_witness :
    (tcellBlock ∈ [tcellBlock, textBlock] ∧
      UNSUPPORTED_CREATE_TYPES.contains tcellBlock.block_type = true ∧
      blockTypeName tcellBlock.block_type ∈
        (insertBlocksInBatches envOK "doc" [tcellBlock, textBlock] none ⟨0, []⟩).1.2) ∧
    ((⟨"doc", "doc", [stripForInsert textBlock]⟩ : CreateCall) ∈
        (insertBlocksInBatches envOK "doc" [tcellBlock, textBlock] none ⟨0, []⟩).2.log ∧
      UNSUPPORTED_CREATE_TYPES.contains (stripForInsert textBlock).block_type = false) :=
  ⟨⟨by decide, by decide,
    unsupported_blocks_never_submitted.2.2 envOK "doc" [tcellBlock, textBlock] none ⟨0, []⟩
      tcellBlock (by decide) (by decide)⟩,
   ⟨by decide,
    unsupported_blocks_never_submitted.2.1 envOK "doc" [tcellBlock, textBlock] none ⟨0, []⟩
      ⟨"doc", "doc", [stripForInsert textBlock]⟩ (stripForInsert textBlock)
      (by decide) (by decide) (by decide)⟩⟩

/-- C4: every create payload issued by `insertBlocksInBatches` holds at
most `MAX_BLOCKS_PER_INSERT = 50` blocks, and 120 insertable blocks
produce exactly three batched calls of sizes 50, 50 and 20, in order. -/
theorem insertBlocksInBatches_chunking :
    (∀ (env : DocEnv) (d : String) (blocks : List Block) (pid : Option String)
       (s : CallState) (call : CreateCall),
      call ∈ (insertBlocksInBatches env d blocks pid s).2.log →
      call ∈ s.log ∨ call.children.length ≤ MAX_BLOCKS_PER_INSERT) ∧
    (insertBlocksInBatches envOK "doc" (List.replicate 120 textBlock) none
        ⟨0, []⟩).2.log.map (fun c => c.children.length) = [50, 50, 20] := by
  constructor
  · intro env d blocks pid s call hcall
    have h2 : (insertBlocksInBatches env d blocks pid s).2 =
        (ibbGo env d (pid.getD d) blocks.length blocks s).2 := rfl
    rw [h2] at hcall
    rcases ibbGo_log_spec env d (pid.getD d) blocks.length blocks s call hcall with h | h
    · exact Or.inl h
    · exact Or.inr h.2.2.1
  · decide

/-- Witness for C4: the single call of a one-block run is in the log and
satisfies the size bound. -/
theorem insertBlocksInBatches_chunking_witness :
    (⟨"doc", "doc", [stripForInsert textBlock]⟩ : CreateCall) ∈
        (insertBlocksInBatches envOK "doc" [textBlock] none ⟨0, []⟩).2.log ∧
    ((⟨"doc", "doc", [stripForInsert textBlock]⟩ : CreateCall) ∈ (⟨0, []⟩ : CallState).log ∨
      (⟨"doc", "doc", [stripForInsert textBlock]⟩ : CreateCall).children.length ≤
        MAX_BLOCKS_PER_INSERT) :=
  ⟨by decide,
   insertBlocksInBatches_chunking.1 envOK "doc" [textBlock] none ⟨0, []⟩
     ⟨"doc", "doc", [stripForInsert textBlock]⟩ (by decide)⟩

/-- Environment for the C5 continuation scenario: the first 51 calls
fail with a non-retryable error, the 52nd succeeds. -/
def envFail : DocEnv :=
  { create := fun k c =>
      if k = 51 then { code := 0, msg := "", children := c.children }
      else { code := 1, msg := "boom", children := [] } }

/-- Environment for the C5 witness: call 0 (the batch) fails
non-retryably, every later call succeeds. -/
def envFail1 : DocEnv :=
  { create := fun k c =>
      if k = 0 then { code := 7, msg := "bad", children := [] }
      else { code := 0, msg := "", children := c.children } }

/-- C5: when the batch call of a chunk returns a non-success code that is
not retryable (modelled by an environment that never triggers retries),
the engine issues exactly one create call per cleaned block of the chunk
after the failed batch call, accumulates the children of whichever
per-block calls succeed, and the loop goes on: with 51 blocks whose
first-chunk batch and all 50 per-block fallbacks fail, the second chunk
is still inserted. -/
theorem insertBlocksInBatches_degradation :
    (∀ (env : DocEnv) (d bid : String) (blocks : List Block) (s : CallState),
      (∀ (k : Nat) (c : CreateCall), (env.create k c).code = 0 ∨
        isRetryableCreateError (some (env.create k c).code)
          (some (env.create k c).msg) = false) →
      blocks.length ≤ MAX_BLOCKS_PER_INSERT →
      (cleanBlocksForInsert blocks).1 ≠ [] →
      (env.create s.count ⟨d, bid, (cleanBlocksForInsert blocks).1⟩).code ≠ 0 →
      insertBlocksInBatches env d blocks (some bid) s =
        ((expectedSingles env d bid (cleanBlocksForInsert blocks).1 (s.count + 1),
          dedupKeepFirst (cleanBlocksForInsert blocks).2),
         { count := s.count + 1 + (cleanBlocksForInsert blocks).1.length,
           log := (s.log ++ [⟨d, bid, (cleanBlocksForInsert blocks).1⟩]) ++
             (cleanBlocksForInsert blocks).1.map (fun b => ⟨d, bid, [b]⟩) })) ∧
    ((insertBlocksInBatches envFail "doc" (List.replicate 51 textBlock) none
        ⟨0, []⟩).1.1.length = 1 ∧
      (insertBlocksInBatches envFail "doc" (List.replicate 51 textBlock) none
        ⟨0, []⟩).2.log.length = 52) := by
  constructor
  · intro env d bid blocks s hI hlen hcne hfail
    have hbne : ¬blocks.isEmpty = true := by
      intro hx
      rw [List.isEmpty_iff.mp hx] at hcne
      simp [cleanBlocksForInsert] at hcne
    have htake : blocks.take MAX_BLOCKS_PER_INSERT = blocks := List.take_of_length_le hlen
    have hdrop : blocks.drop MAX_BLOCKS_PER_INSERT = [] := List.drop_eq_nil_of_le hlen
    have hchunk : processChunk env d bid blocks s =
        ((expectedSingles env d bid (cleanBlocksForInsert blocks).1 (s.count + 1),
          (cleanBlocksForInsert blocks).2),
         { count := s.count + 1 + (cleanBlocksForInsert blocks).1.length,
           log := (s.log ++ [⟨d, bid, (cleanBlocksForInsert blocks).1⟩]) ++
             (cleanBlocksForInsert blocks).1.map (fun b => ⟨d, bid, [b]⟩) }) := by
      simp only [processChunk]
      rw [if_neg (by simpa [List.isEmpty_iff] using hcne)]
      rw [createChildrenWithRetry_once env d bid _ s (hI s.count _)]
      simp only []
      rw [if_neg hfail]
      rw [singlesGo_run env d bid hI]
    obtain ⟨m, hm⟩ : ∃ m, blocks.length = m + 1 := by
      have : 0 < blocks.length :=
        List.length_pos.mpr (by simpa [List.isEmpty_iff] using hbne)
      exact ⟨blocks.length - 1, by omega⟩
    have hibb := ibbGo_succ_eq env d bid m blocks s
    rw [if_neg hbne, htake, hdrop, ibbGo_nil] at hibb
    have hfinal : insertBlocksInBatches env d blocks (some bid) s =
        (((ibbGo env d bid blocks.length blocks s).1.1,
          dedupKeepFirst (ibbGo env d bid blocks.length blocks s).1.2),
         (ibbGo env d bid blocks.length blocks s).2) := rfl
    rw [hfinal, hm, hibb, hchunk]
    simp
  · constructor
    · decide
    · decide

/-- Witness for C5: a two-block chunk whose batch call fails with a
non-retryable code degrades into the logged batch call followed by one
call per cleaned block, keeping the succeeding block's children. -/
theorem insertBlocksInBatches_degradation_witness :
    ((cleanBlocksForInsert [tcellBlock, textBlock]).1 ≠ []) ∧
    ((envFail1.create 0 ⟨"doc", "p", (cleanBlocksForInsert [tcellBlock, textBlock]).1⟩).code ≠ 0) ∧
    insertBlocksInBatches envFail1 "doc" [tcellBlock, textBlock] (some "p") ⟨0, []⟩ =
      ((expectedSingles envFail1 "doc" "p" (cleanBlocksForInsert [tcellBlock, textBlock]).1
          ((⟨0, []⟩ : CallState).count + 1),
        dedupKeepFirst (cleanBlocksForInsert [tcellBlock, textBlock]).2),
       { count := (⟨0, []⟩ : CallState).count + 1 +
           (cleanBlocksForInsert [tcellBlock, textBlock]).1.length,
         log := ((⟨0, []⟩ : CallState).log ++
             [⟨"doc", "p", (cleanBlocksForInsert [tcellBlock, textBlock]).1⟩]) ++
           (cleanBlocksForInsert [tcellBlock, textBlock]).1.map
             (fun b => ⟨"doc", "p", [b]⟩) }) :=
  ⟨by decide, by decide,
   insertBlocksInBatches_degradation.1 envFail1 "doc" "p" [tcellBlock, textBlock] ⟨0, []⟩
     (fun k c => by
       by_cases hk : k = 0
       · subst hk
         right
         have hc7 : envFail1.create 0 c = { code := 7, msg := "bad", children := [] } := rfl
         rw [hc7]
         decide
       · left
         simp [envFail1, hk])
     (by decide) (by decide) (by decide)⟩

/-! ## C7: table cell-count mismatch tolerance -/

/-- Table block with six source cell ids and no cell content. -/
def tbl6Block : Block :=
  { block_type := 31, block_id := some "tb",
    table := some { cells := some ["s1", "s2", "s3", "s4", "s5", "s6"], property := none } }

/-- Table block with an empty source cell id list. -/
def tbl0Block : Block :=
  { block_type := 31, block_id := some "tb",
    table := some { cells := some [], property := none } }

/-- Created table as returned by the remote store, carrying four
generated destination cells. -/
def createdTable4 : Block :=
  { block_type := 31, block_id := some "nt",
    table := some { cells := some ["d1", "d2", "d3", "d4"], property := none } }

/-- Environment whose create calls succeed and always return the
four-cell created table. -/
def envTable : DocEnv :=
  { create := fun _ _ => { code := 0, msg := "", children := [createdTable4] } }

/-- Counterexample for C7 as stated: a table whose source cell id list is
empty (length 0) against a created table with 4 destination cells has
differing cell counts and a returned table block, yet
`insertTableWithCells` returns with an empty warning list — no warning
citing the two counts is emitted. -/
theorem insertTableWithCells_mismatch_counterexample :
    ((tbl0Block.table.bind (fun tb => tb.cells)).getD []).length ≠
      ((createdTable4.table.bind (fun tb => tb.cells)).getD []).length ∧
    insertTableWithCells envTable "doc" tbl0Block [] none ⟨0, []⟩ =
      .ok ({ children := [createdTable4], skipped := [], warnings := [] },
        ⟨1, [⟨"doc", "doc", [stripForInsert tbl0Block]⟩]⟩) := by
  constructor
  · decide
  · rfl

theorem ensureNe_isEmpty_false {α : Type} {l : List α} (h : l ≠ []) : l.isEmpty = false := by
  cases l with
  | nil => exact absurd rfl h
  | cons a t => rfl

/-- C7 (amended): whenever the created table comes back as the sole
child of a successful create call, is table-typed, and both the source
and destination cell id lists are non-empty with different lengths,
`insertTableWithCells` succeeds (no overall failure), emits the warning
citing both counts, and still returns the inserted table block among its
children. -/
theorem insertTableWithCells_mismatch_warning :
    ∀ (env : DocEnv) (d : String) (tableBlock t : Block) (allBlocks : List Block)
      (pid : Option String) (s : CallState) (m : String),
      tableBlock.block_type = 31 →
      env.create s.count ⟨d, pid.getD d, [stripForInsert tableBlock]⟩ =
        { code := 0, msg := m, children := [t] } →
      t.block_type = 31 →
      (tableBlock.table.bind (fun tb => tb.cells)).getD [] ≠ [] →
      (t.table.bind (fun tb => tb.cells)).getD [] ≠ [] →
      ((tableBlock.table.bind (fun tb => tb.cells)).getD []).length ≠
        ((t.table.bind (fun tb => tb.cells)).getD []).length →
      ∃ (out : InsertOutcome) (s1 : CallState),
        insertTableWithCells env d tableBlock allBlocks pid s = .ok (out, s1) ∧
        mismatchWarning ((tableBlock.table.bind (fun tb => tb.cells)).getD []).length
            ((t.table.bind (fun tb => tb.cells)).getD []).length ∈ out.warnings ∧
        t ∈ out.children := by
  intro env d tableBlock t allBlocks pid s m htype hresp ht hsrc hdst hne
  have hculist : cleanBlocksForInsert [tableBlock] = ([stripForInsert tableBlock], []) := by
    simp [cleanBlocksForInsert, UNSUPPORTED_CREATE_TYPES, htype]
  have honce := createChildrenWithRetry_once env d (pid.getD d) [stripForInsert tableBlock] s
    (Or.inl (by rw [hresp]))
  rw [hresp] at honce
  have hsrcE : ((tableBlock.table.bind (fun tb => tb.cells)).getD []).isEmpty = false :=
    ensureNe_isEmpty_false hsrc
  have hdstE : ((t.table.bind (fun tb => tb.cells)).getD []).isEmpty = false :=
    ensureNe_isEmpty_false hdst
  simp only [insertTableWithCells, insertBlocks, hculist, List.isEmpty_cons,
    Bool.false_eq_true, if_false, honce, List.head?_cons, ht, hsrcE, hdstE, hne,
    ne_eq, not_true_eq_false, not_false_eq_true, if_true, ite_false, ite_true]
  refine ⟨_, _, rfl, ?_, ?_⟩
  · simp only [if_pos hne]
    exact List.mem_append_left _ (List.mem_singleton.mpr rfl)
  · exact List.mem_append_left _ (List.mem_singleton.mpr rfl)

/-- Witness for the amended C7: six source cells against four created
cells yields the `source=6, target=4` warning and the created table in
the children. -/
theorem insertTableWithCells_mismatch_warning_witness :
    (tbl6Block.block_type = 31 ∧
      envTable.create (⟨0, []⟩ : CallState).count
          ⟨"doc", (none : Option String).getD "doc", [stripForInsert tbl6Block]⟩ =
        { code := 0, msg := "", children := [createdTable4] } ∧
      createdTable4.block_type = 31) ∧
    (∃ (out : InsertOutcome) (s1 : CallState),
      insertTableWithCells envTable "doc" tbl6Block [] none ⟨0, []⟩ = .ok (out, s1) ∧
      mismatchWarning ((tbl6Block.table.bind (fun tb => tb.cells)).getD []).length
          ((createdTable4.table.bind (fun tb => tb.cells)).getD []).length ∈ out.warnings ∧
      createdTable4 ∈ out.children) :=
  ⟨⟨by decide, by decide, by decide⟩,
   insertTableWithCells_mismatch_warning envTable "doc" tbl6Block createdTable4 [] none
     ⟨0, []⟩ "" (by decide) (by decide) (by decide) (by decide) (by decide) (by decide)⟩

/-! ## C1: zero-insertion guard on write/append -/

theorem string_eq_empty_of_length_zero {s : String} (h : s.length = 0) : s = "" := by
  cases s with
  | mk data =>
    cases data with
    | nil => rfl
    | cons c t => simp [String.length] at h

/-- A successful `ensureBlocksInserted` means the markdown trims to
nothing or at least one block was durably inserted. -/
theorem ensureBlocksInserted_ok (mode markdown : String) (insertedCount : Nat)
    (skipped warnings : List String)
    (h : ensureBlocksInserted mode markdown insertedCount skipped warnings = .ok ()) :
    (jsTrim markdown).length = 0 ∨ 0 < insertedCount := by
  unfold ensureBlocksInserted at h
  split at h
  · exact Or.inl (by assumption)
  · split at h
    · exact Or.inr (by assumption)
    · cases h

/-- C1 (amended): for the `doc-write-service.ts` operations, a `writeDoc`
or `appendDoc` run that returns successfully on markdown with
non-whitespace content reports `blocks_added > 0` — the zero-insertion
guard turns zero durable insertions into a terminal error instead. -/
theorem writeDoc_appendDoc_nonzero_insertion :
    (∀ (env : DocEnv) (docToken markdown : String) (maxBytes : Nat)
       (r : WriteDocResult) (s : CallState),
      writeDoc env docToken markdown maxBytes = .ok (r, s) →
      jsTrim markdown ≠ "" → 0 < r.blocks_added) ∧
    (∀ (env : DocEnv) (docToken markdown : String) (maxBytes : Nat)
       (r : AppendDocResult) (s : CallState),
      appendDoc env docToken markdown maxBytes = .ok (r, s) →
      jsTrim markdown ≠ "" → 0 < r.blocks_added) := by
  constructor
  · intro env docToken markdown maxBytes r s heq hmd
    unfold writeDoc at heq
    split at heq
    · cases heq
    · split at heq
      · cases heq
      · split at heq
        · split at heq
          · cases heq
          · rename_i hlen
            exact absurd (string_eq_empty_of_length_zero (by omega)) hmd
        · dsimp only at heq
          split at heq
          · cases heq
          · split at heq
            · cases heq
            · rcases ensureBlocksInserted_ok _ _ _ _ _ (by assumption) with hz | hpos
              · exact absurd (string_eq_empty_of_length_zero hz) hmd
              · simp only [Option.some.injEq, Prod.mk.injEq, Except.ok.injEq] at heq
                obtain ⟨hr, _⟩ := heq
                rw [← hr]
                exact hpos
  · intro env docToken markdown maxBytes r s heq hmd
    unfold appendDoc at heq
    split at heq
    · cases heq
    · split at heq
      · cases heq
      · dsimp only at heq
        split at heq
        · cases heq
        · split at heq
          · cases heq
          · rcases ensureBlocksInserted_ok _ _ _ _ _ (by assumption) with hz | hpos
            · exact absurd (string_eq_empty_of_length_zero hz) hmd
            · simp only [Option.some.injEq, Prod.mk.injEq, Except.ok.injEq] at heq
              obtain ⟨hr, _⟩ := heq
              rw [← hr]
              exact hpos

/-- Convert-result block of unsupported type used by the C1
counterexample. -/
def cellConvBlock : Block := { block_type := 32, block_id := some "c1" }

/-- Environment whose conversion yields only the unsupported table-cell
block and whose create calls would succeed. -/
def envCell : DocEnv :=
  { create := fun _ c => { code := 0, msg := "", children := c.children },
    convertBlocks := [cellConvBlock], convertFirstLevelIds := ["c1"] }

/-- Counterexample for C1 as stated: the near-duplicate `writeDoc` in
`docx.ts` (used by the drive import path) lacks the zero-insertion
guard — on non-empty markdown whose converted blocks are all of
unsupported types it returns success with `blocks_added = 0` instead of
raising. -/
theorem writeDocLegacy_zero_insertion_counterexample :
    jsTrim "| a |" ≠ "" ∧
    writeDocLegacy envCell "doc" "| a |" 1000 =
      .ok ({ blocks_deleted := 0, blocks_added := 0, images_processed := 0,
             warning := some "Skipped unsupported block types: TableCell." }, ⟨0, []⟩) := by
  constructor
  · decide
  · rfl

/-- Convert-result text block used by the C1 witness. -/
def textConvBlock : Block := { block_type := 2, block_id := some "t1" }

/-- Environment whose conversion yields one text block and whose create
calls succeed. -/
def envText : DocEnv :=
  { create := fun _ c => { code := 0, msg := "", children := c.children },
    convertBlocks := [textConvBlock], convertFirstLevelIds := ["t1"] }

/-- Witness for the amended C1: a successful concrete write and append
both report one inserted block. -/
theorem writeDoc_appendDoc_nonzero_insertion_witness :
    writeDoc envText "doc" "hello" 100 =
      .ok ({ blocks_deleted := 0, blocks_added := 1, images_processed := 0 },
        ⟨1, [⟨"doc", "doc", [stripForInsert textConvBlock]⟩]⟩) ∧
    appendDoc envText "doc" "hello" 100 =
      .ok ({ blocks_added := 1, images_processed := 0, block_ids := [none] },
        ⟨1, [⟨"doc", "doc", [stripForInsert textConvBlock]⟩]⟩) ∧
    jsTrim "hello" ≠ "" ∧
    0 < ({ blocks_deleted := 0, blocks_added := 1, images_processed := 0 } :
      WriteDocResult).blocks_added ∧
    0 < ({ blocks_added := 1, images_processed := 0, block_ids := [none] } :
      AppendDocResult).blocks_added :=
  ⟨by rfl, by rfl, by decide,
   writeDoc_appendDoc_nonzero_insertion.1 envText "doc" "hello" 100 _ _ (by rfl) (by decide),
   writeDoc_appendDoc_nonzero_insertion.2 envText "doc" "hello" 100 _ _ (by rfl) (by decide)⟩

end Feishu
